import Mathlib

/-!
# BubbleChat: rooms, sessions and the command router

A shallow embedding of the chat server (`cmd/server/main.go`, `serverside/chatserver.go`,
`serverside/chatroom.go`, `serverside/client.go`; the package `server/` is a copy of the same
code with unexported field names) and the properties proved about it.

Go strings are modelled by Lean strings (sequences of runes), pointers by natural numbers into
two object tables (`clients`, `rooms`), a Go map with string keys by an association list with
distinct keys, the key set of `map[*Client]bool` by a list of client pointers, and channels by
the list of values sent and not yet received, oldest first.
-/

namespace BubbleChat

/-! ## Strings -/

/-- Go `unicode.IsSpace`: the runes that `strings.TrimSpace` removes. -/
def isSpace (c : Char) : Bool :=
  (9 ≤ c.toNat && c.toNat ≤ 13) || c.toNat == 32 || c.toNat == 0x85 || c.toNat == 0xA0 ||
  c.toNat == 0x1680 || (0x2000 ≤ c.toNat && c.toNat ≤ 0x200A) || c.toNat == 0x2028 ||
  c.toNat == 0x2029 || c.toNat == 0x202F || c.toNat == 0x205F || c.toNat == 0x3000

/-- Go `strings.TrimSpace`: drop the leading and the trailing white space. -/
def TrimSpace (s : String) : String :=
  ⟨((s.data.dropWhile isSpace).reverse.dropWhile isSpace).reverse⟩

/-- Go `strings.SplitN(s, " ", 2)`: cut at the first space, if there is one. -/
def SplitN (s : String) : List String :=
  match s.data.dropWhile (fun c => c != ' ') with
  | [] => [s]
  | _ :: rest => [⟨s.data.takeWhile (fun c => c != ' ')⟩, ⟨rest⟩]

/-- Go `strings.ReplaceAll(s, " ", "_")`. -/
def ReplaceAll (s : String) : String :=
  ⟨s.data.map (fun c => if c = ' ' then '_' else c)⟩

/-- Go `strings.ToLower`, rune by rune; `lower` stands for `unicode.ToLower` of the Go standard
library, whose case tables are not part of the repository. -/
def ToLower (lower : Char → Char) (s : String) : String :=
  ⟨s.data.map lower⟩

/-- The lower-case mapping restricted to the ASCII letters, used to evaluate examples. -/
def asciiLower (c : Char) : Char :=
  if 65 ≤ c.toNat ∧ c.toNat ≤ 90 then Char.ofNat (c.toNat + 32) else c

/-! ## Data model -/

/-- The struct `Message`: the sender (a client pointer) and the rendered text. -/
structure Message where
  Sender : Nat
  Text : String
deriving DecidableEq, Repr

/-- The struct `Client` (`serverside/client.go`). `Ch` is the buffered channel of capacity 10
(the lines sent and not yet taken by the writer goroutine), `Room` the pointer to the current
room (`none` is `nil`), `Conn` the lines the writer goroutine has written to the connection. -/
structure Client where
  Id : Nat
  Username : String
  Conn : List String
  Ch : List String
  Room : Option Nat
deriving DecidableEq, Repr

/-- The struct `ChatRoom` (`serverside/chatroom.go`). `Clients` is the key set of the map,
`Messages` the messages handed to the channel that the broadcast worker has not fanned out
yet, oldest first. -/
structure ChatRoom where
  Id : String
  Name : String
  Clients : List Nat
  Messages : List Message
deriving DecidableEq, Repr

/-- The struct `Server` (`serverside/chatserver.go`) with the objects its pointers refer to:
`Rooms` maps a room id to a room pointer, `rooms` and `clients` give the object behind a
pointer, `nextRoom` is the next room pointer that an allocation returns. -/
structure State where
  Rooms : List (String × Nat)
  IdCounter : Nat
  rooms : Nat → ChatRoom
  clients : Nat → Client
  nextRoom : Nat

/-- Overwrite one entry of an object table. -/
def upd {α : Type} (f : Nat → α) (i : Nat) (v : α) : Nat → α :=
  fun k => if k = i then v else f k

/-- The capacity of `Client.Ch` (`make(chan string, 10)`). -/
def chCap : Nat := 10

/-- The blocking send `client.Ch <- x`. With room in the buffer the line is appended; with a
full buffer the sender waits until the writer goroutine has taken the oldest pending line and
written it to the connection, and then appends. -/
def Client.send (c : Client) (x : String) : Client :=
  if c.Ch.length < chCap then { c with Ch := c.Ch ++ [x] }
  else { c with Conn := c.Conn ++ c.Ch.take 1, Ch := c.Ch.drop 1 ++ [x] }

/-- The non-blocking send `select { case c.Ch <- x: default: }`: the line is dropped when the
buffer is full. -/
def Client.trySend (c : Client) (x : String) : Client :=
  if c.Ch.length < chCap then { c with Ch := c.Ch ++ [x] } else c

/-- Every line sent to a client so far and not dropped: written out or still pending. -/
def Client.stream (c : Client) : List String := c.Conn ++ c.Ch

/-- The statement `client.Ch <- x` for the client behind pointer `c`. -/
def sendTo (s : State) (c : Nat) (x : String) : State :=
  { s with clients := upd s.clients c ((s.clients c).send x) }

/-- One turn of the writer goroutine of `handleConnection`: take the oldest pending line of
the client and write it to the connection. -/
def writer (s : State) (c : Nat) : State :=
  let cl := s.clients c
  { s with clients := upd s.clients c { cl with Conn := cl.Conn ++ cl.Ch.take 1, Ch := cl.Ch.drop 1 } }

/-- The statement `r.Messages <- msg` for the room behind pointer `r`. -/
def enqueue (s : State) (r : Nat) (msg : Message) : State :=
  { s with rooms := upd s.rooms r { (s.rooms r) with Messages := (s.rooms r).Messages ++ [msg] } }

/-! ## serverside/chatroom.go -/

/-- The body of the inner loop of `ChatRoom.Broadcaster` for one member `c`. -/
def deliver (msg : Message) (clients : Nat → Client) (c : Nat) : Nat → Client :=
  if c ≠ msg.Sender then upd clients c ((clients c).trySend msg.Text) else clients

/-- One iteration of the loop of `ChatRoom.Broadcaster` for the room behind `r`: receive the
oldest message and offer it to every member; with no message the worker waits. -/
def Broadcaster (s : State) (r : Nat) : State :=
  match (s.rooms r).Messages with
  | [] => s
  | msg :: rest =>
    { s with rooms := upd s.rooms r { (s.rooms r) with Messages := rest },
             clients := (s.rooms r).Clients.foldl (deliver msg) s.clients }

/-- The method `ChatRoom.AddClient`. -/
def AddClient (s : State) (r c : Nat) : State :=
  let s1 : State :=
    { s with rooms := upd s.rooms r
               { (s.rooms r) with Clients := if c ∈ (s.rooms r).Clients then (s.rooms r).Clients
                                           else (s.rooms r).Clients ++ [c] },
             clients := upd s.clients c { (s.clients c) with Room := some r } }
  enqueue s1 r
    { Sender := c,
      Text := "*** User" ++ (s1.clients c).Username ++ " joined " ++ (s1.rooms r).Name ++ " ***" }

/-- The method `ChatRoom.RemoveClient`. -/
def RemoveClient (s : State) (r c : Nat) : State :=
  let s1 : State :=
    { s with rooms := upd s.rooms r
               { (s.rooms r) with Clients := (s.rooms r).Clients.filter (fun k => k != c) } }
  enqueue s1 r
    { Sender := c,
      Text := "*** User" ++ (s1.clients c).Username ++ " left " ++ (s1.rooms r).Name ++ " ***" }

/-! ## serverside/chatserver.go -/

/-- The method `Server.CreateRoom`: allocate a room and store it under `id`. -/
def CreateRoom (s : State) (id name : String) : State :=
  { s with rooms := upd s.rooms s.nextRoom { Id := id, Name := name, Clients := [], Messages := [] },
           Rooms := (id, s.nextRoom) :: s.Rooms.filter (fun e => e.1 != id),
           nextRoom := s.nextRoom + 1 }

/-- The method `Server.GetRooms`. -/
def GetRooms (s : State) : List String :=
  s.Rooms.map (fun e =>
    e.1 ++ ":" ++ (s.rooms e.2).Name ++ " (" ++ toString (s.rooms e.2).Clients.length ++ " users)")

/-- The method `Server.ValidateUsername`; it hands back the state it was called on. -/
def ValidateUsername (s : State) (username : String) (currentClient : Nat) : Bool × State :=
  (s.Rooms.all (fun e =>
      (s.rooms e.2).Clients.all (fun client =>
        !(client != currentClient && (s.clients client).Username == username))), s)

/-! ## cmd/server/main.go -/

/-- The state that `init` builds: an empty server with the room `general`. -/
def init : State :=
  CreateRoom
    { Rooms := [], IdCounter := 0,
      rooms := fun _ => { Id := "", Name := "", Clients := [], Messages := [] },
      clients := fun i => { Id := i, Username := "", Conn := [], Ch := [], Room := none },
      nextRoom := 0 }
    "general" "General Chat"

/-- The function `showRoomList`. -/
def showRoomList (s : State) (client : Nat) : State :=
  let rooms := GetRooms s
  let s1 := sendTo s client "=== Available Rooms ==="
  let s2 := if rooms.length = 0 then sendTo s1 client "No rooms available"
            else rooms.foldl (fun st room => sendTo st client (" " ++ room)) s1
  sendTo s2 client "========================"

/-- The function `joinRoom`. -/
def joinRoom (s : State) (client : Nat) (roomId : String) : State :=
  match s.Rooms.lookup roomId with
  | none =>
    sendTo s client ("Room '" ++ roomId ++ "' does not exits. Use /list to see availble rooms")
  | some room =>
    let s1 := match (s.clients client).Room with
              | some old => RemoveClient s old client
              | none => s
    let s2 := AddClient s1 room client
    sendTo s2 client ("*** Joined room: " ++ (s2.rooms room).Name ++ " ***")

/-- The function `createRoom`. -/
def createRoom (lower : Char → Char) (s : State) (client : Nat) (roomName : String) : State :=
  let roomId := ToLower lower (ReplaceAll roomName)
  match s.Rooms.lookup roomId with
  | some _ => sendTo s client ("Room '" ++ roomId ++ "' already exists")
  | none =>
    let s1 := CreateRoom s roomId roomName
    let s2 := sendTo s1 client ("*** Created room: " ++ roomName ++ " ***")
    joinRoom s2 client roomId

/-- The function `leaveRoom`. -/
def leaveRoom (s : State) (client : Nat) : State :=
  match (s.clients client).Room with
  | none => sendTo s client "You are not in any room"
  | some r =>
    let roomName := (s.rooms r).Name
    let s1 := RemoveClient s r client
    let s2 : State := { s1 with clients := upd s1.clients client { (s1.clients client) with Room := none } }
    sendTo s2 client ("*** Left room: " ++ roomName ++ " ***")

/-- The function `changeUsername`. -/
def changeUsername (s : State) (client : Nat) (newUsername : String) : State :=
  let newUsername := TrimSpace newUsername
  if newUsername = "" then sendTo s client "Username cannot be empty"
  else if newUsername = (s.clients client).Username then
    sendTo s client "That's already your username"
  else
    let (ok, s) := ValidateUsername s newUsername client
    if !ok then sendTo s client ("Username '" ++ newUsername ++ "' is already taken")
    else
      let oldUsername := (s.clients client).Username
      let s1 : State :=
        { s with clients := upd s.clients client { (s.clients client) with Username := newUsername } }
      let s2 := sendTo s1 client
        ("*** Username changed from '" ++ oldUsername ++ "' to '" ++ newUsername ++ "' ***")
      match (s2.clients client).Room with
      | some r =>
        enqueue s2 r
          { Sender := client,
            Text := "*** " ++ oldUsername ++ " is now known as " ++ newUsername ++ " ***" }
      | none => s2

/-- The keywords of the `switch` in `handleConnection`. -/
def commands : List String := ["/list", "/join", "/username", "/leave", "/create"]

/-- The body of the scanner loop of `handleConnection` for one line read from the
connection. -/
def handleLine (lower : Char → Char) (s : State) (client : Nat) (line : String) : State :=
  let text := TrimSpace line
  if text = "" then s
  else
    match SplitN text with
    | [] => s
    | command :: args =>
      if command = "/list" then showRoomList s client
      else if command = "/join" then
        match args with
        | a :: _ => joinRoom s client a
        | [] => sendTo s client "Usage: /join <room_id>"
      else if command = "/username" then
        match args with
        | a :: _ => changeUsername s client a
        | [] => sendTo s client "Usage: /username <new_name>"
      else if command = "/leave" then leaveRoom s client
      else if command = "/create" then
        match args with
        | a :: _ => createRoom lower s client a
        | [] => sendTo s client "Usage: /create <room_id>"
      else
        match (s.clients client).Room with
        | some r =>
          enqueue s r
            { Sender := client,
              Text := "User" ++ (s.clients client).Username ++ ": " ++ text }
        | none =>
          sendTo s client "Please join a room first. Use /list to see available rooms."

/-- The lines that `handleConnection` sends to a new client before the room list. -/
def welcome : List String :=
  ["=== Welcome to BubbleChat ===", "Commands:", " /list - Show available rooms",
   " /join <room_id> - Join a room", " /leave - Leave current room",
   " /create <room_name> - Create new room"]

/-- The start of `handleConnection`: take the next id, allocate the client, greet it and show
the room list. The new client is the one behind pointer `s.IdCounter + 1`. -/
def connect (s : State) : State :=
  let clientId := s.IdCounter + 1
  let s1 : State :=
    { s with IdCounter := clientId,
             clients := upd s.clients clientId
               { Id := clientId, Username := "", Conn := [], Ch := [], Room := none } }
  showRoomList (welcome.foldl (fun st l => sendTo st clientId l) s1) clientId

/-- The states the server can reach: connections are accepted, connected clients (the ids
handed out so far) send lines, the broadcast workers and the writer goroutines take their
turns, one step at a time. -/
inductive Reachable (lower : Char → Char) : State → Prop
  | start : Reachable lower init
  | accept {s : State} : Reachable lower s → Reachable lower (connect s)
  | line {s : State} (client : Nat) (text : String) :
      0 < client → client ≤ s.IdCounter → Reachable lower s →
      Reachable lower (handleLine lower s client text)
  | broadcast {s : State} (r : Nat) : Reachable lower s → Reachable lower (Broadcaster s r)
  | write {s : State} (client : Nat) : Reachable lower s → Reachable lower (writer s client)

/-! ## Predicates and example states used in the statements -/

/-- The first `n` iterations of the loop of `ChatRoom.Broadcaster` for the room behind `r`. -/
def BroadcasterN (s : State) (r : Nat) : Nat → State
  | 0 => s
  | n + 1 => BroadcasterN (Broadcaster s r) r n

/-- A handler started in `s` has queued one message on the room behind `r` and left the state
`t`: the state in which the worker of `r` has fanned out the messages that were queued before
and receives that message next. With an unbuffered channel, as in the source, nothing is queued
before and this is `t`. -/
def atDelivery (s t : State) (r : Nat) : State :=
  BroadcasterN t r (s.rooms r).Messages.length

/-- Two states with the same registry, counters, member sets and current-room pointers. -/
def SameShape (s t : State) : Prop :=
  t.Rooms = s.Rooms ∧ t.nextRoom = s.nextRoom ∧ t.IdCounter = s.IdCounter ∧
  (∀ r, (t.rooms r).Clients = (s.rooms r).Clients) ∧
  (∀ c, (t.clients c).Room = (s.clients c).Room)

/-- The invariant of the reachable states: membership and current room agree, the registry
and the clients only hold allocated room pointers, and ids not handed out yet are in no room. -/
structure Inv (s : State) : Prop where
  mem_iff : ∀ c r, c ∈ (s.rooms r).Clients ↔ (s.clients c).Room = some r
  reg_lt : ∀ e ∈ s.Rooms, e.2 < s.nextRoom
  fresh_room : ∀ r, s.nextRoom ≤ r → (s.rooms r).Clients = []
  fresh_client : ∀ c, s.IdCounter < c → (s.clients c).Room = none

/-- The client `c` is in no member set and every other client is where its pointer says. -/
def Detached (s : State) (c : Nat) : Prop :=
  (∀ r, c ∉ (s.rooms r).Clients) ∧
  (∀ k r, k ≠ c → (k ∈ (s.rooms r).Clients ↔ (s.clients k).Room = some r))

/-- A state with the client 1 in the room `general`, the only room. -/
def oneInGeneral : State :=
  { Rooms := [("general", 0)], IdCounter := 1, nextRoom := 1,
    rooms := fun r =>
      if r = 0 then { Id := "general", Name := "General Chat", Clients := [1], Messages := [] }
      else { Id := "", Name := "", Clients := [], Messages := [] },
    clients := fun c =>
      { Id := c, Username := if c = 1 then "ann" else "", Conn := [], Ch := [],
        Room := if c = 1 then some 0 else none } }

/-- The user-facing error cases of the router for a line sent by client `c`: an unknown room
id for `/join`, a taken room id for `/create`, `/leave` or a chat line outside every room, an
empty or taken name for `/username`, and a keyword without its argument. -/
def UserError (lower : Char → Char) (s : State) (c : Nat) (line : String) : Prop :=
  (∃ id, SplitN (TrimSpace line) = ["/join", id] ∧ s.Rooms.lookup id = none) ∨
  (∃ name r, SplitN (TrimSpace line) = ["/create", name] ∧
      s.Rooms.lookup (ToLower lower (ReplaceAll name)) = some r) ∨
  ((s.clients c).Room = none ∧
      ((∃ args, SplitN (TrimSpace line) = "/leave" :: args) ∨
       (TrimSpace line ≠ "" ∧ ∀ cmd ∈ commands, (SplitN (TrimSpace line)).head? ≠ some cmd))) ∨
  (∃ name, SplitN (TrimSpace line) = ["/username", name] ∧
      (TrimSpace name = "" ∨
       ∃ id r k, (id, r) ∈ s.Rooms ∧ k ∈ (s.rooms r).Clients ∧ k ≠ c ∧
         (s.clients k).Username = TrimSpace name)) ∨
  (SplitN (TrimSpace line) = ["/join"] ∨ SplitN (TrimSpace line) = ["/create"] ∨
      SplitN (TrimSpace line) = ["/username"])

/-- A state with the clients 1 (`ann`) and 2 (`bob`) in the room `general` and the client 3
in no room; the mailbox of 2 holds one line. -/
def twoInGeneral : State :=
  { Rooms := [("general", 0)], IdCounter := 3, nextRoom := 1,
    rooms := fun r =>
      if r = 0 then { Id := "general", Name := "General Chat", Clients := [1, 2], Messages := [] }
      else { Id := "", Name := "", Clients := [], Messages := [] },
    clients := fun c =>
      { Id := c, Username := if c = 1 then "ann" else if c = 2 then "bob" else "",
        Conn := [], Ch := if c = 2 then ["earlier"] else [],
        Room := if c = 1 ∨ c = 2 then some 0 else none } }

/-- The statements of `createRoom` after its existence check (`main.go`, lines 174 to 178):
the call of `server.CreateRoom`, the reply and the join; `roomId` is the id computed at the
start of `createRoom`. The check reads the registry under `RLock` and releases the lock
before `CreateRoom` takes `Lock`, so another client can run between the two. -/
def createRoomInsert (s : State) (client : Nat) (roomId roomName : String) : State :=
  let s1 := CreateRoom s roomId roomName
  let s2 := sendTo s1 client ("*** Created room: " ++ roomName ++ " ***")
  joinRoom s2 client roomId

/-- Two connected clients in no room; both are about to send `/create`. -/
def raceStart : State := connect (connect init)

/-- Client 1 has sent `/create Lab`: its check found no room `lab` and it has created and
joined the room. -/
def raceFirst : State := createRoomInsert raceStart 1 "lab" "Lab"

/-- Client 2 has sent `/create lab`; its check ran in `raceStart`, before client 1 took the
write lock, and found no room `lab`, and its remaining statements run after those of
client 1. -/
def raceSecond : State := createRoomInsert raceFirst 2 "lab" "lab"

/-- The state after two connections, both clients renaming themselves to `bob` and then
joining the room `general`. -/
def twoBobs : State :=
  handleLine asciiLower
    (handleLine asciiLower
      (handleLine asciiLower
        (handleLine asciiLower (connect (connect init)) 1 "/username bob")
        2 "/username bob")
      1 "/join general")
    2 "/join general"

/-! ## Object tables and mailboxes -/

@[simp] theorem upd_same {α : Type} (f : Nat → α) (i : Nat) (v : α) : upd f i v i = v := by
  simp [upd]

theorem upd_other {α : Type} (f : Nat → α) {i k : Nat} (v : α) (h : k ≠ i) :
    upd f i v k = f k := by
  simp [upd, h]

theorem upd_apply {α : Type} (f : Nat → α) (i k : Nat) (v : α) :
    upd f i v k = if k = i then v else f k := rfl

theorem upd_Room (f : Nat → Client) (i k : Nat) (v : Client) (h : v.Room = (f i).Room) :
    (upd f i v k).Room = (f k).Room := by
  rw [upd_apply]; split
  · next hk => subst hk; exact h
  · rfl

theorem trySend_Ch_of_lt (c : Client) (x : String) (h : c.Ch.length < 10) :
    (c.trySend x).Ch = c.Ch ++ [x] := by
  simp [Client.trySend, chCap, h]

theorem trySend_of_not_lt (c : Client) (x : String) (h : ¬ c.Ch.length < 10) :
    c.trySend x = c := by
  simp [Client.trySend, chCap, h]

theorem trySend_length_le (c : Client) (x : String) (h : c.Ch.length ≤ 10) :
    (c.trySend x).Ch.length ≤ 10 := by
  unfold Client.trySend chCap
  split
  · simp; omega
  · exact h

@[simp] theorem trySend_Room (c : Client) (x : String) : (c.trySend x).Room = c.Room := by
  unfold Client.trySend; split <;> rfl

@[simp] theorem trySend_Username (c : Client) (x : String) :
    (c.trySend x).Username = c.Username := by
  unfold Client.trySend; split <;> rfl

@[simp] theorem send_Room (c : Client) (x : String) : (c.send x).Room = c.Room := by
  unfold Client.send; split <;> rfl

@[simp] theorem send_Username (c : Client) (x : String) : (c.send x).Username = c.Username := by
  unfold Client.send; split <;> rfl

theorem send_stream (c : Client) (x : String) : (c.send x).stream = c.stream ++ [x] := by
  unfold Client.send Client.stream
  split
  · simp
  · simp only [List.append_assoc]
    rw [← List.append_assoc (List.take 1 c.Ch), List.take_append_drop]

theorem send_Ch_of_lt (c : Client) (x : String) (h : c.Ch.length < 10) :
    (c.send x).Ch = c.Ch ++ [x] ∧ (c.send x).Conn = c.Conn := by
  simp [Client.send, chCap, h]

@[simp] theorem sendTo_Rooms (s : State) (c : Nat) (x : String) :
    (sendTo s c x).Rooms = s.Rooms := rfl

@[simp] theorem sendTo_nextRoom (s : State) (c : Nat) (x : String) :
    (sendTo s c x).nextRoom = s.nextRoom := rfl

@[simp] theorem sendTo_IdCounter (s : State) (c : Nat) (x : String) :
    (sendTo s c x).IdCounter = s.IdCounter := rfl

theorem sendTo_clients (s : State) (c k : Nat) (x : String) :
    (sendTo s c x).clients k = if k = c then (s.clients c).send x else s.clients k := rfl

@[simp] theorem sendTo_clients_Room (s : State) (c k : Nat) (x : String) :
    ((sendTo s c x).clients k).Room = (s.clients k).Room := by
  rw [sendTo_clients]; split
  · next h => subst h; simp
  · rfl

@[simp] theorem sendTo_clients_Username (s : State) (c k : Nat) (x : String) :
    ((sendTo s c x).clients k).Username = (s.clients k).Username := by
  rw [sendTo_clients]; split
  · next h => subst h; simp
  · rfl

@[simp] theorem enqueue_Rooms (s : State) (r : Nat) (m : Message) :
    (enqueue s r m).Rooms = s.Rooms := rfl

@[simp] theorem enqueue_nextRoom (s : State) (r : Nat) (m : Message) :
    (enqueue s r m).nextRoom = s.nextRoom := rfl

@[simp] theorem enqueue_IdCounter (s : State) (r : Nat) (m : Message) :
    (enqueue s r m).IdCounter = s.IdCounter := rfl

@[simp] theorem enqueue_clients (s : State) (r : Nat) (m : Message) :
    (enqueue s r m).clients = s.clients := rfl

theorem enqueue_rooms (s : State) (r k : Nat) (m : Message) :
    (enqueue s r m).rooms k =
      if k = r then { (s.rooms r) with Messages := (s.rooms r).Messages ++ [m] }
      else s.rooms k := rfl

@[simp] theorem enqueue_rooms_Clients (s : State) (r k : Nat) (m : Message) :
    ((enqueue s r m).rooms k).Clients = (s.rooms k).Clients := by
  rw [enqueue_rooms]; split
  · next h => subst h; rfl
  · rfl

@[simp] theorem enqueue_rooms_Name (s : State) (r k : Nat) (m : Message) :
    ((enqueue s r m).rooms k).Name = (s.rooms k).Name := by
  rw [enqueue_rooms]; split
  · next h => subst h; rfl
  · rfl

/-! ## The broadcast worker -/

theorem foldl_deliver (msg : Message) :
    ∀ (l : List Nat) (cl : Nat → Client), l.Nodup → ∀ c,
      l.foldl (deliver msg) cl c =
        if c ∈ l ∧ c ≠ msg.Sender then (cl c).trySend msg.Text else cl c := by
  intro l
  induction l with
  | nil => intro cl _ c; simp
  | cons a l ih =>
    intro cl hnd c
    have hnd2 := List.nodup_cons.mp hnd
    rw [List.foldl_cons, ih _ hnd2.2]
    by_cases hca : c = a
    · subst hca
      by_cases hs : c = msg.Sender
      · simp [deliver, hs]
      · simp [deliver, hs, hnd2.1]
    · by_cases hs : a = msg.Sender
      · by_cases hcs : c = msg.Sender <;> simp [deliver, hs, hca, hcs]
      · simp [deliver, hs, hca, upd_other]

theorem foldl_deliver_Room (msg : Message) :
    ∀ (l : List Nat) (cl : Nat → Client) (c : Nat),
      (l.foldl (deliver msg) cl c).Room = (cl c).Room := by
  intro l
  induction l with
  | nil => intro cl c; rfl
  | cons a l ih =>
    intro cl c
    rw [List.foldl_cons, ih]
    unfold deliver
    split
    · exact upd_Room _ _ _ _ (trySend_Room _ _)
    · rfl

theorem Broadcaster_cons (s : State) (r : Nat) (msg : Message) (rest : List Message)
    (h : (s.rooms r).Messages = msg :: rest) :
    Broadcaster s r =
      { s with rooms := upd s.rooms r { (s.rooms r) with Messages := rest },
               clients := (s.rooms r).Clients.foldl (deliver msg) s.clients } := by
  unfold Broadcaster
  rw [h]

theorem Broadcaster_Clients (s : State) (r r' : Nat) :
    ((Broadcaster s r).rooms r').Clients = (s.rooms r').Clients := by
  unfold Broadcaster
  split
  · rfl
  · by_cases h : r' = r
    · subst h; simp
    · simp [upd_other _ _ h]

theorem BroadcasterN_queue (r : Nat) (msg : Message) :
    ∀ (q : List Message) (s : State), (s.rooms r).Messages = q ++ [msg] →
      ((BroadcasterN s r q.length).rooms r).Messages = [msg] ∧
      ∀ k, ((BroadcasterN s r q.length).rooms k).Clients = (s.rooms k).Clients := by
  intro q
  induction q with
  | nil => intro s h; exact ⟨h, fun _ => rfl⟩
  | cons m q ih =>
    intro s h
    have hq : ((Broadcaster s r).rooms r).Messages = q ++ [msg] := by
      rw [Broadcaster_cons s r m (q ++ [msg]) h]
      simp
    obtain ⟨h1, h2⟩ := ih (Broadcaster s r) hq
    refine ⟨h1, fun k => ?_⟩
    show ((BroadcasterN (Broadcaster s r) r q.length).rooms k).Clients = _
    rw [h2 k, Broadcaster_Clients]

/-- The worker of room `r` reaches the message that was queued on `r` in the state `s`: the
members other than the sender are offered the text, nobody else is touched. -/
theorem Broadcaster_atDelivery (s : State) (r : Nat) (msg : Message)
    (hM : (s.rooms r).Clients.Nodup) (c : Nat) :
    (Broadcaster (atDelivery s (enqueue s r msg) r) r).clients c =
      if c ∈ (s.rooms r).Clients ∧ c ≠ msg.Sender then
        ((atDelivery s (enqueue s r msg) r).clients c).trySend msg.Text
      else (atDelivery s (enqueue s r msg) r).clients c := by
  unfold atDelivery
  obtain ⟨h1, h2⟩ := BroadcasterN_queue r msg (s.rooms r).Messages (enqueue s r msg)
    (by simp [enqueue])
  rw [Broadcaster_cons _ r msg [] h1]
  show List.foldl (deliver msg) (BroadcasterN (enqueue s r msg) r (s.rooms r).Messages.length).clients
    ((BroadcasterN (enqueue s r msg) r (s.rooms r).Messages.length).rooms r).Clients c = _
  rw [h2 r, enqueue_rooms_Clients]
  exact foldl_deliver msg _ _ hM c

/-- C2. One step of the broadcast worker of a room whose oldest queued message is `msg`: every
member other than the sender with fewer than 10 pending lines gets `msg.Text` appended to its
mailbox; the mailbox of the sender, every mailbox already holding 10 lines and the mailbox of
every session outside the member set stay as they are; no member set changes and no mailbox
grows beyond 10 lines. The members are the keys of a Go map, so distinct (`hM`). -/
theorem Broadcaster_step (s : State) (r : Nat) (msg : Message) (rest : List Message)
    (hq : (s.rooms r).Messages = msg :: rest) (hM : (s.rooms r).Clients.Nodup) :
    (∀ c, c ∈ (s.rooms r).Clients → c ≠ msg.Sender → (s.clients c).Ch.length < 10 →
        ((Broadcaster s r).clients c).Ch = (s.clients c).Ch ++ [msg.Text]) ∧
    ((Broadcaster s r).clients msg.Sender).Ch = (s.clients msg.Sender).Ch ∧
    (∀ c, 10 ≤ (s.clients c).Ch.length → ((Broadcaster s r).clients c).Ch = (s.clients c).Ch) ∧
    (∀ c, c ∉ (s.rooms r).Clients → ((Broadcaster s r).clients c).Ch = (s.clients c).Ch) ∧
    (∀ r', ((Broadcaster s r).rooms r').Clients = (s.rooms r').Clients) ∧
    (∀ c, (s.clients c).Ch.length ≤ 10 → ((Broadcaster s r).clients c).Ch.length ≤ 10) := by
  have hcl : ∀ c, (Broadcaster s r).clients c =
      if c ∈ (s.rooms r).Clients ∧ c ≠ msg.Sender then (s.clients c).trySend msg.Text
      else s.clients c := by
    intro c
    rw [Broadcaster_cons s r msg rest hq]
    exact foldl_deliver msg _ _ hM c
  refine ⟨?_, ?_, ?_, ?_, Broadcaster_Clients s r, ?_⟩
  · intro c hc hs hlen
    rw [hcl c, if_pos ⟨hc, hs⟩, trySend_Ch_of_lt _ _ hlen]
  · rw [hcl]; simp
  · intro c hlen
    rw [hcl c]
    split
    · rw [trySend_of_not_lt _ _ (by omega)]
    · rfl
  · intro c hc
    rw [hcl c]; simp [hc]
  · intro c hlen
    rw [hcl c]
    split
    · exact trySend_length_le _ _ hlen
    · exact hlen

theorem Broadcaster_step_witness :
    ((Broadcaster (enqueue twoInGeneral 0 { Sender := 1, Text := "x" }) 0).clients 2).Ch =
      ["earlier", "x"] ∧
    ((Broadcaster (enqueue twoInGeneral 0 { Sender := 1, Text := "x" }) 0).clients 1).Ch = [] ∧
    ((Broadcaster (enqueue twoInGeneral 0 { Sender := 1, Text := "x" }) 0).clients 3).Ch = [] := by
  have h := Broadcaster_step (enqueue twoInGeneral 0 { Sender := 1, Text := "x" }) 0
    { Sender := 1, Text := "x" } [] (by decide) (by decide)
  exact ⟨h.1 2 (by decide) (by decide) (by decide), h.2.1, h.2.2.2.1 3 (by decide)⟩

/-! ## The router: which branch a line takes -/

theorem SplitN_ne_nil (s : String) : SplitN s ≠ [] := by
  unfold SplitN
  split <;> simp

theorem TrimSpace_ne_of_SplitN {line cmd : String} {args : List String}
    (h : SplitN (TrimSpace line) = cmd :: args) (hc : cmd ≠ "") : TrimSpace line ≠ "" := by
  intro he
  rw [he] at h
  have h2 : SplitN "" = [""] := by decide
  rw [h2] at h
  exact hc (List.cons.inj h).1.symm

/-- The text of a chat message: `fmt.Sprintf("User%s: %s", client.Username, text)`. -/
theorem handleLine_chat (lower : Char → Char) (s : State) (A R : Nat) (line : String)
    (hroom : (s.clients A).Room = some R) (hne : TrimSpace line ≠ "")
    (hcmd : ∀ cmd ∈ commands, (SplitN (TrimSpace line)).head? ≠ some cmd) :
    handleLine lower s A line =
      enqueue s R { Sender := A,
                    Text := "User" ++ (s.clients A).Username ++ ": " ++ TrimSpace line } := by
  unfold handleLine
  simp only [hne, if_false]
  cases hsp : SplitN (TrimSpace line) with
  | nil => exact absurd hsp (SplitN_ne_nil _)
  | cons command args =>
    rw [hsp] at hcmd
    have h1 : command ≠ "/list" := fun h => hcmd "/list" (by simp [commands]) (by simp [h])
    have h2 : command ≠ "/join" := fun h => hcmd "/join" (by simp [commands]) (by simp [h])
    have h3 : command ≠ "/username" :=
      fun h => hcmd "/username" (by simp [commands]) (by simp [h])
    have h4 : command ≠ "/leave" := fun h => hcmd "/leave" (by simp [commands]) (by simp [h])
    have h5 : command ≠ "/create" := fun h => hcmd "/create" (by simp [commands]) (by simp [h])
    simp only [h1, h2, h3, h4, h5, if_false, hroom]

theorem handleLine_lobby_chat (lower : Char → Char) (s : State) (c : Nat) (line : String)
    (hroom : (s.clients c).Room = none) (hne : TrimSpace line ≠ "")
    (hcmd : ∀ cmd ∈ commands, (SplitN (TrimSpace line)).head? ≠ some cmd) :
    handleLine lower s c line =
      sendTo s c "Please join a room first. Use /list to see available rooms." := by
  unfold handleLine
  simp only [hne, if_false]
  cases hsp : SplitN (TrimSpace line) with
  | nil => exact absurd hsp (SplitN_ne_nil _)
  | cons command args =>
    rw [hsp] at hcmd
    have h1 : command ≠ "/list" := fun h => hcmd "/list" (by simp [commands]) (by simp [h])
    have h2 : command ≠ "/join" := fun h => hcmd "/join" (by simp [commands]) (by simp [h])
    have h3 : command ≠ "/username" :=
      fun h => hcmd "/username" (by simp [commands]) (by simp [h])
    have h4 : command ≠ "/leave" := fun h => hcmd "/leave" (by simp [commands]) (by simp [h])
    have h5 : command ≠ "/create" := fun h => hcmd "/create" (by simp [commands]) (by simp [h])
    simp only [h1, h2, h3, h4, h5, if_false, hroom]

theorem handleLine_create (lower : Char → Char) (s : State) (c : Nat) (line n : String)
    (hparse : SplitN (TrimSpace line) = ["/create", n]) :
    handleLine lower s c line = createRoom lower s c n := by
  have hne := TrimSpace_ne_of_SplitN hparse (by decide)
  unfold handleLine
  simp only [hne, if_false, hparse]
  rfl

theorem handleLine_join (lower : Char → Char) (s : State) (c : Nat) (line n : String)
    (hparse : SplitN (TrimSpace line) = ["/join", n]) :
    handleLine lower s c line = joinRoom s c n := by
  have hne := TrimSpace_ne_of_SplitN hparse (by decide)
  unfold handleLine
  simp only [hne, if_false, hparse]
  rfl

theorem handleLine_username (lower : Char → Char) (s : State) (c : Nat) (line n : String)
    (hparse : SplitN (TrimSpace line) = ["/username", n]) :
    handleLine lower s c line = changeUsername s c n := by
  have hne := TrimSpace_ne_of_SplitN hparse (by decide)
  unfold handleLine
  simp only [hne, if_false, hparse]
  rfl

theorem handleLine_leave (lower : Char → Char) (s : State) (c : Nat) (line : String)
    (args : List String) (hparse : SplitN (TrimSpace line) = "/leave" :: args) :
    handleLine lower s c line = leaveRoom s c := by
  have hne := TrimSpace_ne_of_SplitN hparse (by decide)
  unfold handleLine
  simp only [hne, if_false, hparse]
  rfl

theorem handleLine_usage (lower : Char → Char) (s : State) (c : Nat) (line : String) :
    (SplitN (TrimSpace line) = ["/join"] →
      handleLine lower s c line = sendTo s c "Usage: /join <room_id>") ∧
    (SplitN (TrimSpace line) = ["/create"] →
      handleLine lower s c line = sendTo s c "Usage: /create <room_id>") ∧
    (SplitN (TrimSpace line) = ["/username"] →
      handleLine lower s c line = sendTo s c "Usage: /username <new_name>") := by
  refine ⟨fun hparse => ?_, fun hparse => ?_, fun hparse => ?_⟩
  all_goals
    have hne := TrimSpace_ne_of_SplitN hparse (by decide)
    unfold handleLine
    simp only [hne, if_false, hparse]
    rfl

/-- C1. A client `A` whose current room is `R` sends a line that is not blank and whose first
word is no command keyword; `t = TrimSpace line` is the line as the read loop trims it. When
the broadcast worker of `R` has fanned out what was queued before (`atDelivery`) and processes
the message, every other member of `R` with fewer than 10 pending lines gets exactly one more
line in its mailbox, the line `User<name of A>: t`, which contains the display name of `A` and
`t`; `A` itself is untouched (no echo). The router itself writes to no mailbox: it leaves
every client as it was and only appends the one message to the queue of `R`, so with nothing
queued before, as in the source, the mailboxes after router and worker are those of `s` with
that one line added. The members are the keys of a Go map, so distinct (`hM`). -/
theorem chat_line_broadcast (lower : Char → Char) (s : State) (A R : Nat) (line : String)
    (hroom : (s.clients A).Room = some R) (hM : (s.rooms R).Clients.Nodup)
    (hne : TrimSpace line ≠ "")
    (hcmd : ∀ cmd ∈ commands, (SplitN (TrimSpace line)).head? ≠ some cmd) :
    (∀ B, B ∈ (s.rooms R).Clients → B ≠ A →
      ((atDelivery s (handleLine lower s A line) R).clients B).Ch.length < 10 →
      ((Broadcaster (atDelivery s (handleLine lower s A line) R) R).clients B).Ch =
        ((atDelivery s (handleLine lower s A line) R).clients B).Ch ++
          ["User" ++ (s.clients A).Username ++ ": " ++ TrimSpace line]) ∧
    (Broadcaster (atDelivery s (handleLine lower s A line) R) R).clients A =
      (atDelivery s (handleLine lower s A line) R).clients A ∧
    (s.clients A).Username.data <:+:
      ("User" ++ (s.clients A).Username ++ ": " ++ TrimSpace line).data ∧
    (TrimSpace line).data <:+:
      ("User" ++ (s.clients A).Username ++ ": " ++ TrimSpace line).data ∧
    (handleLine lower s A line).clients = s.clients ∧
    (handleLine lower s A line).Rooms = s.Rooms ∧
    (∀ k, ((handleLine lower s A line).rooms k).Clients = (s.rooms k).Clients) ∧
    (∀ k, k ≠ R → (handleLine lower s A line).rooms k = s.rooms k) ∧
    ((handleLine lower s A line).rooms R).Messages =
      (s.rooms R).Messages ++
        [⟨A, "User" ++ (s.clients A).Username ++ ": " ++ TrimSpace line⟩] ∧
    ((s.rooms R).Messages = [] →
      (∀ B, B ∈ (s.rooms R).Clients → B ≠ A → (s.clients B).Ch.length < 10 →
        ((Broadcaster (handleLine lower s A line) R).clients B).Ch =
          (s.clients B).Ch ++ ["User" ++ (s.clients A).Username ++ ": " ++ TrimSpace line]) ∧
      (∀ B, (B ∉ (s.rooms R).Clients ∨ B = A ∨ 10 ≤ (s.clients B).Ch.length) →
        (Broadcaster (handleLine lower s A line) R).clients B = s.clients B)) := by
  rw [handleLine_chat lower s A R line hroom hne hcmd]
  refine ⟨?_, ?_, ?_, ?_, rfl, rfl, fun k => enqueue_rooms_Clients s R k _, fun k hk => ?_,
    ?_, fun hq => ?_⟩
  · intro B hB hBA hlen
    rw [Broadcaster_atDelivery s R _ hM B, if_pos ⟨hB, hBA⟩, trySend_Ch_of_lt _ _ hlen]
  · rw [Broadcaster_atDelivery s R _ hM A]
    simp
  · exact ⟨"User".data, (": " ++ TrimSpace line).data, by simp [String.data_append]⟩
  · exact ⟨("User" ++ (s.clients A).Username ++ ": ").data, [], by simp [String.data_append]⟩
  · rw [enqueue_rooms, if_neg hk]
  · rw [enqueue_rooms, if_pos rfl]
  · have hd : ∀ m : Message, atDelivery s (enqueue s R m) R = enqueue s R m := by
      intro m
      unfold atDelivery
      rw [hq]
      rfl
    have hB := fun B => Broadcaster_atDelivery s R
      ⟨A, "User" ++ (s.clients A).Username ++ ": " ++ TrimSpace line⟩ hM B
    simp only [hd, enqueue_clients] at hB
    refine ⟨fun B hB1 hBA hlen => ?_, fun B hcase => ?_⟩
    · rw [hB B, if_pos ⟨hB1, hBA⟩, trySend_Ch_of_lt _ _ hlen]
    · rw [hB B]
      split
      · next hin =>
        rcases hcase with h1 | h1 | h1
        · exact absurd hin.1 h1
        · exact absurd h1 hin.2
        · exact trySend_of_not_lt _ _ (by omega)
      · rfl

theorem chat_line_broadcast_witness :
    ((Broadcaster (handleLine asciiLower twoInGeneral 1 "hello") 0).clients 2).Ch =
      ["earlier", "Userann: hello"] ∧
    (Broadcaster (handleLine asciiLower twoInGeneral 1 "hello") 0).clients 1 =
      twoInGeneral.clients 1 ∧
    (handleLine asciiLower twoInGeneral 1 "hello").clients = twoInGeneral.clients := by
  have h := chat_line_broadcast asciiLower twoInGeneral 1 0 "hello"
    (by decide) (by decide) (by decide) (by decide)
  have h2 := h.2.2.2.2.2.2.2.2.2 (by decide)
  exact ⟨h2.1 2 (by decide) (by decide) (by decide), h2.2 1 (Or.inr (Or.inl rfl)),
    h.2.2.2.2.1⟩

/-! ## States of the same shape -/

theorem SameShape.refl (s : State) : SameShape s s :=
  ⟨Eq.refl _, Eq.refl _, Eq.refl _, fun _ => Eq.refl _, fun _ => Eq.refl _⟩

theorem SameShape.trans {s t u : State} (h1 : SameShape s t) (h2 : SameShape t u) :
    SameShape s u :=
  ⟨h2.1.trans h1.1, h2.2.1.trans h1.2.1, h2.2.2.1.trans h1.2.2.1,
   fun r => (h2.2.2.2.1 r).trans (h1.2.2.2.1 r), fun c => (h2.2.2.2.2 c).trans (h1.2.2.2.2 c)⟩

theorem sameShape_sendTo (s : State) (c : Nat) (x : String) : SameShape s (sendTo s c x) :=
  ⟨rfl, rfl, rfl, fun _ => rfl, fun k => sendTo_clients_Room s c k x⟩

theorem sameShape_enqueue (s : State) (r : Nat) (m : Message) : SameShape s (enqueue s r m) :=
  ⟨rfl, rfl, rfl, fun k => enqueue_rooms_Clients s r k m, fun _ => rfl⟩

theorem sameShape_writer (s : State) (c : Nat) : SameShape s (writer s c) := by
  refine ⟨rfl, rfl, rfl, fun _ => rfl, fun k => ?_⟩
  exact upd_Room _ _ _ _ rfl

theorem sameShape_Broadcaster (s : State) (r : Nat) : SameShape s (Broadcaster s r) := by
  refine ⟨?_, ?_, ?_, Broadcaster_Clients s r, fun k => ?_⟩
  all_goals unfold Broadcaster; split
  any_goals rfl
  exact foldl_deliver_Room _ _ _ _

theorem sameShape_foldl_sendTo (c : Nat) :
    ∀ (l : List String) (s : State), SameShape s (l.foldl (fun st x => sendTo st c x) s) := by
  intro l
  induction l with
  | nil => intro s; exact SameShape.refl s
  | cons a l ih => intro s; exact (sameShape_sendTo s c a).trans (ih _)

theorem sameShape_showRoomList (s : State) (c : Nat) : SameShape s (showRoomList s c) := by
  unfold showRoomList
  refine SameShape.trans ?_ (sameShape_sendTo _ _ _)
  split
  · exact (sameShape_sendTo _ _ _).trans (sameShape_sendTo _ _ _)
  · refine (sameShape_sendTo s c "=== Available Rooms ===").trans ?_
    have h := sameShape_foldl_sendTo c ((GetRooms s).map (fun room => " " ++ room))
      (sendTo s c "=== Available Rooms ===")
    rw [List.foldl_map] at h
    exact h

theorem sameShape_changeUsername (s : State) (c : Nat) (n : String) :
    SameShape s (changeUsername s c n) := by
  unfold changeUsername ValidateUsername
  simp only
  split
  · exact sameShape_sendTo _ _ _
  split
  · exact sameShape_sendTo _ _ _
  split
  · exact sameShape_sendTo _ _ _
  have h1 : SameShape s
      { s with clients := upd s.clients c { (s.clients c) with Username := TrimSpace n } } := by
    refine ⟨rfl, rfl, rfl, fun _ => rfl, fun k => ?_⟩
    exact upd_Room _ _ _ _ rfl
  split
  · exact (h1.trans (sameShape_sendTo _ _ _)).trans (sameShape_enqueue _ _ _)
  · exact h1.trans (sameShape_sendTo _ _ _)

/-! ## The registry and the room operations -/

theorem lookup_mem {l : List (String × Nat)} {k : String} {v : Nat}
    (h : l.lookup k = some v) : (k, v) ∈ l := by
  induction l with
  | nil => simp at h
  | cons a l ih =>
    obtain ⟨a1, a2⟩ := a
    rw [List.lookup_cons] at h
    by_cases hk : k = a1
    · subst hk; simp at h; subst h; simp
    · have : (k == a1) = false := by simpa using hk
      rw [this] at h
      exact List.mem_cons_of_mem _ (ih h)

theorem lookup_filter_ne (l : List (String × Nat)) (id k : String) (h : k ≠ id) :
    (l.filter (fun e => e.1 != id)).lookup k = l.lookup k := by
  induction l with
  | nil => rfl
  | cons a l ih =>
    obtain ⟨a1, a2⟩ := a
    by_cases ha : a1 = id
    · subst ha
      have : (k == a1) = false := by simpa using h
      simp [List.filter_cons, List.lookup_cons, this, ih]
    · by_cases hk : k = a1
      · subst hk; simp [List.filter_cons, List.lookup_cons, ha]
      · have hk2 : (k == a1) = false := by simpa using hk
        simp [List.filter_cons, List.lookup_cons, ha, hk2, ih]

theorem lookup_CreateRoom_self (s : State) (id name : String) :
    (CreateRoom s id name).Rooms.lookup id = some s.nextRoom := by
  simp [CreateRoom, List.lookup_cons]

theorem lookup_CreateRoom_other (s : State) (id name k : String) (h : k ≠ id) :
    (CreateRoom s id name).Rooms.lookup k = s.Rooms.lookup k := by
  have hb : (k == id) = false := by simpa using h
  show List.lookup k ((id, s.nextRoom) :: s.Rooms.filter (fun e => e.1 != id)) = _
  rw [List.lookup_cons, hb]
  exact lookup_filter_ne s.Rooms id k h

theorem createRoom_exists (lower : Char → Char) (s : State) (c r : Nat) (name : String)
    (h : s.Rooms.lookup (ToLower lower (ReplaceAll name)) = some r) :
    createRoom lower s c name =
      sendTo s c ("Room '" ++ ToLower lower (ReplaceAll name) ++ "' already exists") := by
  unfold createRoom
  simp only [h]

theorem createRoom_absent (lower : Char → Char) (s : State) (c : Nat) (name : String)
    (h : s.Rooms.lookup (ToLower lower (ReplaceAll name)) = none) :
    createRoom lower s c name = createRoomInsert s c (ToLower lower (ReplaceAll name)) name := by
  unfold createRoom createRoomInsert
  simp only [h]

theorem validate_true_iff (s : State) (n : String) (e : Nat) :
    (ValidateUsername s n e).1 = true ↔
      ¬ ∃ id r, (id, r) ∈ s.Rooms ∧
          ∃ c, c ∈ (s.rooms r).Clients ∧ c ≠ e ∧ (s.clients c).Username = n := by
  unfold ValidateUsername
  simp only [List.all_eq_true]
  constructor
  · rintro h ⟨id, r, hmem, c, hc, hce, hname⟩
    have := h (id, r) hmem c hc
    simp [hce, hname] at this
  · intro h entry hentry c hc
    by_contra hcon
    apply h
    refine ⟨entry.1, entry.2, hentry, c, hc, ?_⟩
    simp at hcon
    exact hcon

theorem RemoveClient_Clients (s : State) (r c k : Nat) :
    ((RemoveClient s r c).rooms k).Clients =
      if k = r then (s.rooms r).Clients.filter (fun j => j != c) else (s.rooms k).Clients := by
  unfold RemoveClient
  simp only [enqueue_rooms_Clients, upd_apply]
  split <;> rfl

@[simp] theorem RemoveClient_clients (s : State) (r c : Nat) :
    (RemoveClient s r c).clients = s.clients := rfl

@[simp] theorem RemoveClient_Rooms (s : State) (r c : Nat) :
    (RemoveClient s r c).Rooms = s.Rooms := rfl

@[simp] theorem RemoveClient_nextRoom (s : State) (r c : Nat) :
    (RemoveClient s r c).nextRoom = s.nextRoom := rfl

@[simp] theorem RemoveClient_IdCounter (s : State) (r c : Nat) :
    (RemoveClient s r c).IdCounter = s.IdCounter := rfl

theorem AddClient_Clients (s : State) (r c k : Nat) :
    ((AddClient s r c).rooms k).Clients =
      if k = r then
        (if c ∈ (s.rooms r).Clients then (s.rooms r).Clients else (s.rooms r).Clients ++ [c])
      else (s.rooms k).Clients := by
  unfold AddClient
  simp only [enqueue_rooms_Clients, upd_apply]
  split <;> rfl

theorem AddClient_clients (s : State) (r c k : Nat) :
    (AddClient s r c).clients k =
      if k = c then { (s.clients c) with Room := some r } else s.clients k := rfl

@[simp] theorem AddClient_Rooms (s : State) (r c : Nat) :
    (AddClient s r c).Rooms = s.Rooms := rfl

@[simp] theorem AddClient_nextRoom (s : State) (r c : Nat) :
    (AddClient s r c).nextRoom = s.nextRoom := rfl

@[simp] theorem AddClient_IdCounter (s : State) (r c : Nat) :
    (AddClient s r c).IdCounter = s.IdCounter := rfl

theorem Inv.of_sameShape {s t : State} (h : SameShape s t) (hi : Inv s) : Inv t := by
  obtain ⟨h1, h2, h3, h4, h5⟩ := h
  refine ⟨fun c r => ?_, fun e he => ?_, fun r hr => ?_, fun c hc => ?_⟩
  · rw [h4, h5]; exact hi.mem_iff c r
  · rw [h2]; exact hi.reg_lt e (h1 ▸ he)
  · rw [h4]; exact hi.fresh_room r (h2 ▸ hr)
  · rw [h5]; exact hi.fresh_client c (h3 ▸ hc)

theorem Inv_init : Inv init := by
  refine ⟨fun c r => ?_, fun e he => ?_, fun r hr => ?_, fun c hc => ?_⟩
  · simp [init, CreateRoom, upd_apply]
    split <;> simp
  · simp [init, CreateRoom] at he ⊢
    subst he; simp
  · simp [init, CreateRoom, upd_apply]
    split <;> simp
  · simp [init, CreateRoom]

theorem Inv_CreateRoom (s : State) (id name : String) (hi : Inv s) :
    Inv (CreateRoom s id name) := by
  refine ⟨fun c r => ?_, fun e he => ?_, fun r hr => ?_, fun c hc => ?_⟩
  · show c ∈ (upd s.rooms s.nextRoom _ r).Clients ↔ (s.clients c).Room = some r
    rw [upd_apply]
    split
    · next h =>
      subst h
      have := hi.fresh_room s.nextRoom (Nat.le_refl _)
      have h2 := hi.mem_iff c s.nextRoom
      rw [this] at h2
      simpa using h2
    · exact hi.mem_iff c r
  · show e.2 < s.nextRoom + 1
    have : e ∈ (id, s.nextRoom) :: s.Rooms.filter (fun e => e.1 != id) := he
    rcases List.mem_cons.mp this with h | h
    · subst h; simp
    · exact Nat.lt_succ_of_lt (hi.reg_lt e (List.mem_of_mem_filter h))
  · have hr2 : s.nextRoom + 1 ≤ r := hr
    show (upd s.rooms s.nextRoom _ r).Clients = []
    rw [upd_other _ _ (by omega)]
    exact hi.fresh_room r (by omega)
  · exact hi.fresh_client c hc

theorem Detached_RemoveClient (s : State) (r c : Nat) (hi : Inv s)
    (hr : (s.clients c).Room = some r) : Detached (RemoveClient s r c) c := by
  refine ⟨fun k => ?_, fun k r' hk => ?_⟩
  · rw [RemoveClient_Clients]
    split
    · simp
    · next h =>
      intro hmem
      have := (hi.mem_iff c k).mp hmem
      rw [hr] at this
      exact h (Option.some.inj this).symm
  · rw [RemoveClient_Clients, RemoveClient_clients, ← hi.mem_iff k r']
    split
    · next h => subst h; simp [hk]
    · rfl

theorem Detached_of_none (s : State) (c : Nat) (hi : Inv s)
    (hr : (s.clients c).Room = none) : Detached s c := by
  refine ⟨fun r hmem => ?_, fun k r _ => hi.mem_iff k r⟩
  have := (hi.mem_iff c r).mp hmem
  rw [hr] at this
  exact Option.noConfusion this

theorem mem_iff_AddClient (s : State) (r c : Nat) (hd : Detached s c) :
    ∀ k r', k ∈ ((AddClient s r c).rooms r').Clients ↔ ((AddClient s r c).clients k).Room = some r' := by
  intro k r'
  rw [AddClient_Clients, AddClient_clients]
  by_cases hk : k = c
  · subst hk
    by_cases hr : r' = r
    · subst hr; simp [hd.1 r']
    · have : r ≠ r' := fun h => hr h.symm
      simp [hr, hd.1 r', this]
  · by_cases hr : r' = r
    · subst hr; simp [hk, hd.1 r', hd.2 k r' hk]
    · simp [hk, hr, hd.2 k r' hk]

theorem Inv_AddClient (s : State) (r c : Nat) (hd : Detached s c)
    (hreg : ∀ e ∈ s.Rooms, e.2 < s.nextRoom)
    (hfr : ∀ k, s.nextRoom ≤ k → (s.rooms k).Clients = [])
    (hfc : ∀ k, s.IdCounter < k → k ≠ c → (s.clients k).Room = none)
    (hr : r < s.nextRoom) (hc : c ≤ s.IdCounter) : Inv (AddClient s r c) := by
  refine ⟨mem_iff_AddClient s r c hd, hreg, fun k hk => ?_, fun k hk => ?_⟩
  · rw [AddClient_Clients, if_neg (by rw [AddClient_nextRoom] at hk; omega)]
    exact hfr k hk
  · have hk2 : s.IdCounter < k := hk
    rw [AddClient_clients, if_neg (by omega)]
    exact hfc k hk2 (by omega)

theorem Inv_joinRoom (s : State) (c : Nat) (roomId : String) (hi : Inv s)
    (hc : c ≤ s.IdCounter) : Inv (joinRoom s c roomId) := by
  unfold joinRoom
  split
  · exact hi.of_sameShape (sameShape_sendTo _ _ _)
  · next room hlook =>
    refine Inv.of_sameShape (sameShape_sendTo _ _ _) ?_
    have hr : room < s.nextRoom := hi.reg_lt _ (lookup_mem hlook)
    split
    · next old hold =>
      refine Inv_AddClient _ room c (Detached_RemoveClient s old c hi hold) hi.reg_lt
        (fun k hk => ?_) (fun k hk _ => hi.fresh_client k hk) hr hc
      rw [RemoveClient_Clients]
      split
      · next h => subst h; rw [hi.fresh_room k hk]; rfl
      · exact hi.fresh_room k hk
    · next hnone =>
      exact Inv_AddClient s room c (Detached_of_none s c hi hnone) hi.reg_lt hi.fresh_room
        (fun k hk _ => hi.fresh_client k hk) hr hc

theorem Inv_leaveRoom (s : State) (c : Nat) (hi : Inv s) : Inv (leaveRoom s c) := by
  unfold leaveRoom
  split
  · exact hi.of_sameShape (sameShape_sendTo _ _ _)
  · next r hr =>
    refine Inv.of_sameShape (sameShape_sendTo _ _ _) ?_
    have hd := Detached_RemoveClient s r c hi hr
    refine ⟨fun k r' => ?_, hi.reg_lt, fun k hk => ?_, fun k hk => ?_⟩
    · show k ∈ ((RemoveClient s r c).rooms r').Clients ↔ (@upd Client _ c _ k).Room = some r'
      rw [upd_apply]
      split
      · next h => subst h; simp [hd.1 r']
      · next h => exact hd.2 k r' h
    · show ((RemoveClient s r c).rooms k).Clients = []
      rw [RemoveClient_Clients]
      split
      · next h => subst h; rw [hi.fresh_room k hk]; rfl
      · exact hi.fresh_room k hk
    · show (@upd Client _ c _ k).Room = none
      rw [upd_apply]
      split
      · rfl
      · exact hi.fresh_client k hk

theorem Inv_createRoom (lower : Char → Char) (s : State) (c : Nat) (roomName : String)
    (hi : Inv s) (hc : c ≤ s.IdCounter) : Inv (createRoom lower s c roomName) := by
  unfold createRoom
  simp only
  split
  · exact hi.of_sameShape (sameShape_sendTo _ _ _)
  · exact Inv_joinRoom _ c _
      ((Inv_CreateRoom s _ roomName hi).of_sameShape (sameShape_sendTo _ _ _)) hc

theorem Inv_handleLine (lower : Char → Char) (s : State) (c : Nat) (line : String)
    (hi : Inv s) (hc : c ≤ s.IdCounter) : Inv (handleLine lower s c line) := by
  unfold handleLine
  simp only
  split
  · exact hi
  split
  · exact hi
  split
  · exact hi.of_sameShape (sameShape_showRoomList _ _)
  split
  · split
    · exact Inv_joinRoom s c _ hi hc
    · exact hi.of_sameShape (sameShape_sendTo _ _ _)
  split
  · split
    · exact hi.of_sameShape (sameShape_changeUsername _ _ _)
    · exact hi.of_sameShape (sameShape_sendTo _ _ _)
  split
  · exact Inv_leaveRoom s c hi
  split
  · split
    · exact Inv_createRoom lower s c _ hi hc
    · exact hi.of_sameShape (sameShape_sendTo _ _ _)
  split
  · exact hi.of_sameShape (sameShape_enqueue _ _ _)
  · exact hi.of_sameShape (sameShape_sendTo _ _ _)

theorem Inv_connect (s : State) (hi : Inv s) : Inv (connect s) := by
  unfold connect
  simp only
  refine Inv.of_sameShape (sameShape_showRoomList _ _) ?_
  refine Inv.of_sameShape (sameShape_foldl_sendTo _ _ _) ?_
  have hnone := hi.fresh_client (s.IdCounter + 1) (Nat.lt_succ_self _)
  refine ⟨fun k r => ?_, hi.reg_lt, hi.fresh_room, fun k hk => ?_⟩
  · show k ∈ (s.rooms r).Clients ↔ (upd s.clients _ _ k).Room = some r
    rw [upd_Room _ _ _ _ (by rw [hnone])]
    exact hi.mem_iff k r
  · have hk2 : s.IdCounter + 1 < k := hk
    show (upd s.clients _ _ k).Room = none
    rw [upd_other _ _ (by omega)]
    exact hi.fresh_client k (by omega)

theorem Inv_of_Reachable (lower : Char → Char) (s : State) (h : Reachable lower s) : Inv s := by
  induction h with
  | start => exact Inv_init
  | accept _ ih => exact Inv_connect _ ih
  | line client text _ hc _ ih => exact Inv_handleLine lower _ client text ih hc
  | broadcast r _ ih => exact ih.of_sameShape (sameShape_Broadcaster _ r)
  | write client _ ih => exact ih.of_sameShape (sameShape_writer _ client)

/-- C3. In every reachable state a session is in the member set of a room exactly when that
room is its current room, and so no session is a member of two rooms. -/
theorem membership_matches_current_room (lower : Char → Char) (s : State)
    (h : Reachable lower s) :
    (∀ c r, c ∈ (s.rooms r).Clients ↔ (s.clients c).Room = some r) ∧
    (∀ c r1 r2, c ∈ (s.rooms r1).Clients → c ∈ (s.rooms r2).Clients → r1 = r2) := by
  have hi := Inv_of_Reachable lower s h
  refine ⟨hi.mem_iff, fun c r1 r2 h1 h2 => ?_⟩
  have e1 := (hi.mem_iff c r1).mp h1
  have e2 := (hi.mem_iff c r2).mp h2
  rw [e1] at e2
  exact Option.some.inj e2

theorem membership_matches_current_room_witness :
    (1 ∈ ((handleLine asciiLower (connect init) 1 "/join general").rooms 0).Clients ↔
      ((handleLine asciiLower (connect init) 1 "/join general").clients 1).Room = some 0) :=
  (membership_matches_current_room asciiLower
    (handleLine asciiLower (connect init) 1 "/join general")
    (Reachable.line 1 "/join general" (by decide) (by decide)
      (Reachable.accept Reachable.start))).1 1 0

/-! ## Display names -/

/-- C4 (the code at a failing input). Two connected clients rename themselves to `bob` while
in no room and both renames are accepted; afterwards both join `general` and are members of
the same room under the same display name. -/
theorem duplicate_usernames_reachable :
    Reachable asciiLower twoBobs ∧ twoBobs.IdCounter = 2 ∧
    (twoBobs.clients 1).Username = "bob" ∧ (twoBobs.clients 2).Username = "bob" ∧
    (twoBobs.rooms 0).Clients = [1, 2] ∧
    ((connect (connect init)).clients 1).Username = ((connect (connect init)).clients 2).Username := by
  refine ⟨?_, by decide, by decide, by decide, by decide, by decide⟩
  exact Reachable.line 2 "/join general" (by decide) (by decide)
    (Reachable.line 1 "/join general" (by decide) (by decide)
      (Reachable.line 2 "/username bob" (by decide) (by decide)
        (Reachable.line 1 "/username bob" (by decide) (by decide)
          (Reachable.accept (Reachable.accept Reachable.start)))))

/-- C5. `ValidateUsername n e` answers true exactly when no room of the registry has a member
other than `e` whose display name is `n`, and it returns the state unchanged. -/
theorem ValidateUsername_iff (s : State) (n : String) (e : Nat) :
    ((ValidateUsername s n e).1 = true ↔
      ¬ ∃ id r, (id, r) ∈ s.Rooms ∧
          ∃ c, c ∈ (s.rooms r).Clients ∧ c ≠ e ∧ (s.clients c).Username = n) ∧
    (ValidateUsername s n e).2 = s :=
  ⟨validate_true_iff s n e, rfl⟩

/-! ## Creating rooms -/

/-- What `CreateRoom` does, also with an id that is taken: it returns nothing, the entry of
the id now leads to a newly allocated room with the given name and no member, no other entry
with that id is left, and the entries of the other ids, the existing room objects and the
clients are as before. -/
theorem CreateRoom_effect (s : State) (id name : String) :
    (CreateRoom s id name).Rooms.lookup id = some s.nextRoom ∧
    (∀ e ∈ (CreateRoom s id name).Rooms, e.1 = id → e.2 = s.nextRoom) ∧
    (∀ e : String × Nat, e.1 ≠ id → (e ∈ (CreateRoom s id name).Rooms ↔ e ∈ s.Rooms)) ∧
    (CreateRoom s id name).rooms s.nextRoom =
      { Id := id, Name := name, Clients := [], Messages := [] } ∧
    (∀ k, k ≠ id → (CreateRoom s id name).Rooms.lookup k = s.Rooms.lookup k) ∧
    (∀ r, r ≠ s.nextRoom → (CreateRoom s id name).rooms r = s.rooms r) ∧
    (CreateRoom s id name).clients = s.clients := by
  refine ⟨lookup_CreateRoom_self s id name, fun e he hid => ?_, fun e hne => ?_, ?_,
    fun k hk => lookup_CreateRoom_other s id name k hk, fun r hr => ?_, rfl⟩
  · have he2 : e ∈ (id, s.nextRoom) :: s.Rooms.filter (fun e => e.1 != id) := he
    rcases List.mem_cons.mp he2 with h1 | h1
    · rw [h1]
    · have := (List.mem_filter.mp h1).2
      simp [hid] at this
  · show e ∈ (id, s.nextRoom) :: s.Rooms.filter (fun e => e.1 != id) ↔ _
    rw [List.mem_cons, List.mem_filter]
    constructor
    · rintro (h1 | h1)
      · rw [h1] at hne; exact absurd rfl hne
      · exact h1.1
    · intro h1
      exact Or.inr ⟨h1, by simpa using hne⟩
  · show upd s.rooms s.nextRoom _ s.nextRoom = _
    rw [upd_same]
  · show upd s.rooms s.nextRoom _ r = _
    rw [upd_other _ _ hr]

/-- C6 (the code at a failing input). Clients 1 and 2 send `/create Lab` and `/create lab`
at the same time; both checks of `createRoom` read the registry before either `CreateRoom`
runs and find no room `lab`. `CreateRoom` has no result and no check of its own: the second
call puts a new room in the place of the first. Afterwards the id `lab` leads to the room of
client 2 alone, client 1 is still in the first room, which no registry entry reaches any more,
and both clients were told that their room was created; nobody got the reply
`Room 'lab' already exists`, which client 2 gets when its check runs after client 1 is
done. -/
theorem CreateRoom_overwrites_on_race :
    ToLower asciiLower (ReplaceAll "Lab") = "lab" ∧
    ToLower asciiLower (ReplaceAll "lab") = "lab" ∧
    raceStart.Rooms.lookup "lab" = none ∧
    raceFirst = handleLine asciiLower raceStart 1 "/create Lab" ∧
    raceFirst.Rooms = [("lab", 1), ("general", 0)] ∧
    (raceFirst.rooms 1).Name = "Lab" ∧ (raceFirst.rooms 1).Clients = [1] ∧
    raceSecond.Rooms = [("lab", 2), ("general", 0)] ∧
    (raceSecond.rooms 2).Name = "lab" ∧ (raceSecond.rooms 2).Clients = [2] ∧
    (raceSecond.clients 1).Room = some 1 ∧ (raceSecond.rooms 1).Clients = [1] ∧
    (∀ e ∈ raceSecond.Rooms, e.2 ≠ 1) ∧
    "*** Created room: Lab ***" ∈ (raceSecond.clients 1).stream ∧
    "*** Created room: lab ***" ∈ (raceSecond.clients 2).stream ∧
    "Room 'lab' already exists" ∉ (raceSecond.clients 1).stream ∧
    "Room 'lab' already exists" ∉ (raceSecond.clients 2).stream ∧
    ((handleLine asciiLower raceFirst 2 "/create lab").clients 2).stream.getLast? =
      some "Room 'lab' already exists" := by
  refine ⟨by decide, by decide, by decide, ?_, by decide, by decide, by decide, by decide,
    by decide, by decide, by decide, by decide, by decide, by decide, by decide, by decide,
    by decide, by decide⟩
  rw [handleLine_create asciiLower raceStart 1 "/create Lab" "Lab" (by decide),
    createRoom_absent asciiLower raceStart 1 "Lab" (by decide)]
  rfl

theorem changeUsername_rejected (s : State) (c : Nat) (name : String)
    (h : TrimSpace name = "" ∨
       ∃ id r k, (id, r) ∈ s.Rooms ∧ k ∈ (s.rooms r).Clients ∧ k ≠ c ∧
         (s.clients k).Username = TrimSpace name) :
    ∃ msg, changeUsername s c name = sendTo s c msg := by
  unfold changeUsername
  simp only
  split
  · exact ⟨_, rfl⟩
  split
  · exact ⟨_, rfl⟩
  rcases h with h | ⟨id, r, k, h1, h2, h3, h4⟩
  · contradiction
  · have hv : (ValidateUsername s (TrimSpace name) c).1 = false := by
      cases hb : (ValidateUsername s (TrimSpace name) c).1 with
      | false => rfl
      | true => exact absurd ⟨id, r, h1, k, h2, h3, h4⟩ ((validate_true_iff s _ c).mp hb)
    have hs : (ValidateUsername s (TrimSpace name) c).2 = s := rfl
    simp only [hv, hs]
    exact ⟨_, rfl⟩

theorem user_error_sendTo (lower : Char → Char) (s : State) (c : Nat) (line : String)
    (h : UserError lower s c line) : ∃ msg, handleLine lower s c line = sendTo s c msg := by
  rcases h with ⟨id, hp, hl⟩ | ⟨name, r, hp, hl⟩ | ⟨hroom, ⟨args, hp⟩ | ⟨hne, hcmd⟩⟩ |
    ⟨name, hp, hrej⟩ | hp | hp | hp
  · rw [handleLine_join lower s c line id hp]
    unfold joinRoom
    simp only [hl]
    exact ⟨_, rfl⟩
  · rw [handleLine_create lower s c line name hp, createRoom_exists lower s c r name hl]
    exact ⟨_, rfl⟩
  · rw [handleLine_leave lower s c line args hp]
    unfold leaveRoom
    simp only [hroom]
    exact ⟨_, rfl⟩
  · exact ⟨_, handleLine_lobby_chat lower s c line hroom hne hcmd⟩
  · rw [handleLine_username lower s c line name hp]
    exact changeUsername_rejected s c name hrej
  · exact ⟨_, (handleLine_usage lower s c line).1 hp⟩
  · exact ⟨_, (handleLine_usage lower s c line).2.1 hp⟩
  · exact ⟨_, (handleLine_usage lower s c line).2.2 hp⟩

/-- C9. In each user-facing error case the router sends exactly one line to the client that
issued the command (appended to its mailbox when the mailbox has room, after one turn of its
writer otherwise) and changes nothing else: the registry, every room with its member set and
queue, the display name and the current room of every client, and every other client are what
they were. -/
theorem user_error_single_reply (lower : Char → Char) (s : State) (c : Nat) (line : String)
    (h : UserError lower s c line) :
    ∃ msg,
      ((handleLine lower s c line).clients c).stream = (s.clients c).stream ++ [msg] ∧
      ((s.clients c).Ch.length < 10 →
        ((handleLine lower s c line).clients c).Ch = (s.clients c).Ch ++ [msg] ∧
        ((handleLine lower s c line).clients c).Conn = (s.clients c).Conn) ∧
      (handleLine lower s c line).Rooms = s.Rooms ∧
      (handleLine lower s c line).rooms = s.rooms ∧
      (handleLine lower s c line).IdCounter = s.IdCounter ∧
      (handleLine lower s c line).nextRoom = s.nextRoom ∧
      (∀ k, ((handleLine lower s c line).clients k).Username = (s.clients k).Username ∧
            ((handleLine lower s c line).clients k).Room = (s.clients k).Room) ∧
      (∀ k, k ≠ c → (handleLine lower s c line).clients k = s.clients k) := by
  obtain ⟨msg, hmsg⟩ := user_error_sendTo lower s c line h
  refine ⟨msg, ?_⟩
  rw [hmsg]
  refine ⟨?_, fun hlen => ?_, rfl, rfl, rfl, rfl, fun k => ⟨by simp, by simp⟩, fun k hk => ?_⟩
  · rw [sendTo_clients, if_pos rfl, send_stream]
  · rw [sendTo_clients, if_pos rfl]
    exact send_Ch_of_lt _ _ hlen
  · rw [sendTo_clients, if_neg hk]

theorem user_error_single_reply_witness :
    UserError asciiLower oneInGeneral 1 "/join nowhere" ∧
    ∃ msg, ((handleLine asciiLower oneInGeneral 1 "/join nowhere").clients 1).stream =
        (oneInGeneral.clients 1).stream ++ [msg] ∧
      (handleLine asciiLower oneInGeneral 1 "/join nowhere").Rooms = oneInGeneral.Rooms :=
  ⟨Or.inl ⟨"nowhere", by decide, by decide⟩,
   (user_error_single_reply asciiLower oneInGeneral 1 "/join nowhere"
      (Or.inl ⟨"nowhere", by decide, by decide⟩)).imp (fun _ h => ⟨h.1, h.2.2.1⟩)⟩

/-! ## Command arguments -/

/-- C10 (the code at a failing input). With one space after the keyword the client joins
`general`; with two spaces the router looks up the id ` general`, finds no room and the client
stays outside; `/create` with two spaces stores the room under the id `_my_room`. -/
theorem join_argument_not_trimmed :
    ((handleLine asciiLower (connect init) 1 "/join general").clients 1).Room = some 0 ∧
    ((handleLine asciiLower (connect init) 1 "/join  general").clients 1).Room = none ∧
    ((handleLine asciiLower (connect init) 1 "/join  general").clients 1).Ch.getLast? =
      some "Room ' general' does not exits. Use /list to see availble rooms" ∧
    (handleLine asciiLower (connect init) 1 "/create  My Room").Rooms =
      [("_my_room", 1), ("general", 0)] := by
  decide

end BubbleChat
